import Mathlib

/-!
Verification development for the `agend` supervisor module
(`src/agend/supervisor.py`).  The Python code is shallowly embedded:
pure functions become Lean functions, in-place mutation becomes explicit
state passing, file I/O becomes an explicit association-list file system,
and the `json` library calls (`json.loads`, `json.dump`) are modelled by
an executable JSON syntax parser over an inductive JSON value type.
-/

namespace Agend

/-! ### JSON values

`JValue` models the Python values produced by `json.loads`: `None`,
booleans, numbers (kept as their source lexeme, so no floating point is
involved), strings, lists and dicts.  A dict is kept as the parsed
key/value pair list; lookups take the *last* binding for a key, matching
the way Python's dict construction lets later duplicate keys win. -/

inductive JValue where
  | jnull : JValue
  | jbool : Bool → JValue
  | jnum : String → JValue
  | jstr : String → JValue
  | jarr : List JValue → JValue
  | jobj : List (String × JValue) → JValue

/-- `dict.get(k)` on a parsed JSON object: the last binding for `k`, if any. -/
def dictGetOpt (kvs : List (String × JValue)) (k : String) : Option JValue :=
  match kvs with
  | [] => none
  | (k', v) :: rest =>
    if k' = k then
      match dictGetOpt rest k with
      | some w => some w
      | none => some v
    else dictGetOpt rest k

/-- `dict.get(k, d)` on a parsed JSON object. -/
def dictGet (kvs : List (String × JValue)) (k : String) (d : JValue) : JValue :=
  match dictGetOpt kvs k with
  | some v => v
  | none => d

/-! ### A model of `json.loads`

Recursive-descent parser following CPython's `json` module (default,
strict settings): whitespace is space / tab / newline / carriage return;
strings reject raw control characters below 0x20 and support the escapes
`\" \\ \/ \b \f \n \r \t \uXXXX` with surrogate-pair combination (a lone
surrogate, which Python keeps as a lone surrogate code unit, is mapped to
U+FFFD since Lean `Char` holds only scalar values — no claim depends on
it); numbers follow `json`'s NUMBER_RE `-?(0|[1-9]\d*)(\.\d+)?([eE][+-]?\d+)?`
and the constants `NaN`, `Infinity`, `-Infinity` are accepted.  Recursion
is fuel-bounded; the fuel supplied by `json_loads` exceeds the maximal
possible nesting depth of its input, so it never cuts a real parse short. -/

def jsonWs (c : Char) : Bool :=
  c = ' ' || c = '\t' || c = '\n' || c = '\r'

def skipWs (l : List Char) : List Char := l.dropWhile jsonWs

/-- Value of one hexadecimal digit (digits, then lower-case and
upper-case letter ranges, by code point). -/
def hexVal (c : Char) : Option Nat :=
  let n := c.toNat
  if 48 ≤ n && n ≤ 57 then some (n - 48)
  else if 97 ≤ n && n ≤ 102 then some (n - 87)
  else if 65 ≤ n && n ≤ 70 then some (n - 55)
  else none

/-- Turn a code point into a `Char`, sending non-scalar values to U+FFFD. -/
def uChar (n : Nat) : Char :=
  if n < 0xD800 ∨ (0xE000 ≤ n ∧ n < 0x110000) then Char.ofNat n
  else Char.ofNat 0xFFFD

/-- Four hex digits of a `\uXXXX` escape. -/
def parseU4 : List Char → Option (Nat × List Char)
  | h1 :: h2 :: h3 :: h4 :: r =>
    match hexVal h1, hexVal h2, hexVal h3, hexVal h4 with
    | some a, some b, some c, some d => some ((((a * 16 + b) * 16 + c) * 16 + d), r)
    | _, _, _, _ => none
  | _ => none

/-- A `\u` escape, including surrogate-pair combination. -/
def parseUEscape (l : List Char) : Option (Char × List Char) :=
  match parseU4 l with
  | none => none
  | some (n, r) =>
    if 0xD800 ≤ n && n ≤ 0xDBFF then
      match r with
      | '\\' :: 'u' :: r2 =>
        (match parseU4 r2 with
         | some (m, r3) =>
           if 0xDC00 ≤ m && m ≤ 0xDFFF then
             some (uChar (0x10000 + (n - 0xD800) * 0x400 + (m - 0xDC00)), r3)
           else some (uChar n, r)
         | none => some (uChar n, r))
      | _ => some (uChar n, r)
    else some (uChar n, r)

def consMap (c : Char) (o : Option (List Char × List Char)) :
    Option (List Char × List Char) :=
  match o with
  | some (cs, r) => some (c :: cs, r)
  | none => none

/-- Body of a JSON string, after the opening quote. -/
def parseStringBody : Nat → List Char → Option (List Char × List Char)
  | 0, _ => none
  | _, [] => none
  | f + 1, c :: rest =>
    if c = '"' then some ([], rest)
    else if c = '\\' then
      match rest with
      | [] => none
      | e :: r2 =>
        if e = '"' then consMap '"' (parseStringBody f r2)
        else if e = '\\' then consMap '\\' (parseStringBody f r2)
        else if e = '/' then consMap '/' (parseStringBody f r2)
        else if e = 'b' then consMap '\x08' (parseStringBody f r2)
        else if e = 'f' then consMap '\x0c' (parseStringBody f r2)
        else if e = 'n' then consMap '\n' (parseStringBody f r2)
        else if e = 'r' then consMap '\r' (parseStringBody f r2)
        else if e = 't' then consMap '\t' (parseStringBody f r2)
        else if e = 'u' then
          match parseUEscape r2 with
          | some (ch, r3) => consMap ch (parseStringBody f r3)
          | none => none
        else none
    else if c.toNat < 0x20 then none
    else consMap c (parseStringBody f rest)

def spanDigits (l : List Char) : List Char × List Char :=
  (l.takeWhile Char.isDigit, l.dropWhile Char.isDigit)

/-- Optional fraction part `.\d+`. -/
def parseFrac (l : List Char) : List Char × List Char :=
  match l with
  | '.' :: r =>
    let p := spanDigits r
    if p.1 = [] then ([], l) else ('.' :: p.1, p.2)
  | _ => ([], l)

/-- Optional exponent part `[eE][+-]?\d+`. -/
def parseExp (l : List Char) : List Char × List Char :=
  match l with
  | c :: r =>
    if c = 'e' || c = 'E' then
      let sp : List Char × List Char :=
        match r with
        | '+' :: rr => (['+'], rr)
        | '-' :: rr => (['-'], rr)
        | _ => ([], r)
      let p := spanDigits sp.2
      if p.1 = [] then ([], l) else (c :: (sp.1 ++ p.1), p.2)
    else ([], l)
  | [] => ([], l)

/-- A JSON number per `json`'s NUMBER_RE. -/
def parseNumber (l : List Char) : Option (JValue × List Char) :=
  let sg : List Char × List Char :=
    match l with
    | '-' :: r => (['-'], r)
    | _ => ([], l)
  match sg.2 with
  | [] => none
  | c :: r1 =>
    if c = '0' then
      let fr := parseFrac r1
      let ex := parseExp fr.2
      some (.jnum (String.mk (sg.1 ++ ['0'] ++ fr.1 ++ ex.1)), ex.2)
    else if c.isDigit then
      let ds := spanDigits r1
      let fr := parseFrac ds.2
      let ex := parseExp fr.2
      some (.jnum (String.mk (sg.1 ++ (c :: ds.1) ++ fr.1 ++ ex.1)), ex.2)
    else none

mutual

/-- One JSON value, starting at a non-whitespace position. -/
def parseValue : Nat → List Char → Option (JValue × List Char)
  | 0, _ => none
  | f + 1, l =>
    match l with
    | '\x7b' :: rest =>
      (match skipWs rest with
       | '\x7d' :: r2 => some (.jobj [], r2)
       | r2 => parseMembers f r2 [])
    | '[' :: rest =>
      (match skipWs rest with
       | ']' :: r2 => some (.jarr [], r2)
       | r2 => parseElements f r2 [])
    | '"' :: rest =>
      (match parseStringBody (rest.length + 1) rest with
       | some (cs, r) => some (.jstr (String.mk cs), r)
       | none => none)
    | 't' :: 'r' :: 'u' :: 'e' :: r => some (.jbool true, r)
    | 'f' :: 'a' :: 'l' :: 's' :: 'e' :: r => some (.jbool false, r)
    | 'n' :: 'u' :: 'l' :: 'l' :: r => some (.jnull, r)
    | 'N' :: 'a' :: 'N' :: r => some (.jnum "NaN", r)
    | 'I' :: 'n' :: 'f' :: 'i' :: 'n' :: 'i' :: 't' :: 'y' :: r =>
      some (.jnum "Infinity", r)
    | '-' :: 'I' :: 'n' :: 'f' :: 'i' :: 'n' :: 'i' :: 't' :: 'y' :: r =>
      some (.jnum "-Infinity", r)
    | _ => parseNumber l

/-- Members of a JSON object, starting at a (whitespace-skipped) key position. -/
def parseMembers : Nat → List Char → List (String × JValue) →
    Option (JValue × List Char)
  | 0, _, _ => none
  | f + 1, l, acc =>
    match l with
    | '"' :: rest =>
      (match parseStringBody (rest.length + 1) rest with
       | some (kcs, r2) =>
         (match skipWs r2 with
          | ':' :: r3 =>
            (match parseValue f (skipWs r3) with
             | some (v, r4) =>
               (match skipWs r4 with
                | ',' :: r5 => parseMembers f (skipWs r5) (acc ++ [(String.mk kcs, v)])
                | '\x7d' :: r5 => some (.jobj (acc ++ [(String.mk kcs, v)]), r5)
                | _ => none)
             | none => none)
          | _ => none)
       | none => none)
    | _ => none

/-- Elements of a JSON array, starting at a (whitespace-skipped) value position. -/
def parseElements : Nat → List Char → List JValue → Option (JValue × List Char)
  | 0, _, _ => none
  | f + 1, l, acc =>
    match parseValue f l with
    | some (v, r) =>
      (match skipWs r with
       | ',' :: r2 => parseElements f (skipWs r2) (acc ++ [v])
       | ']' :: r2 => some (.jarr (acc ++ [v]), r2)
       | _ => none)
    | none => none

end

/-- Model of Python `json.loads`: skip leading whitespace, parse one value,
require nothing but whitespace after it.  Each recursion level of the
parser consumes at least one character every two calls, so the fuel
`2 * length + 2` can never be exhausted on a parse Python would accept. -/
def json_loads (s : String) : Option JValue :=
  let l := skipWs s.toList
  match parseValue (2 * l.length + 2) l with
  | some (v, rest) => if skipWs rest = [] then some v else none
  | none => none

/-- Whether `json.loads` succeeds on `s`. -/
def isValidJson (s : String) : Bool := (json_loads s).isSome

/-! ### Python string helpers

`str.strip()` and `str[:200]` as used by `SupervisorAgent._parse_response`,
and the whitespace class of `re`'s `\s` (modelled over its ASCII members,
the only ones the repository's strings contain). -/

def isPyWs (c : Char) : Bool :=
  c = ' ' || c = '\t' || c = '\n' || c = '\r' || c = '\x0b' || c = '\x0c'

def stripChars (l : List Char) : List Char :=
  ((l.dropWhile isPyWs).reverse.dropWhile isPyWs).reverse

/-- Python `s.strip()`. -/
def pyStrip (s : String) : String := String.mk (stripChars s.toList)

/-- Python `s[:200]` (slicing counts code points, as does `List.take`). -/
def pyTake200 (s : String) : String := String.mk (s.toList.take 200)

/-! ### Data model: `TodoItem`, `TodoList` (`supervisor.py` lines 28–93) -/

structure TodoItem where
  content : String
  completed : Bool
deriving DecidableEq

structure TodoList where
  items : List TodoItem
  task_description : String
deriving DecidableEq

/-- `TodoItem.to_dict`. -/
def TodoItem.to_dict (it : TodoItem) : JValue :=
  .jobj [("content", .jstr it.content), ("completed", .jbool it.completed)]

/-- `TodoList.to_dict`. -/
def TodoList.to_dict (tl : TodoList) : JValue :=
  .jobj [("task_description", .jstr tl.task_description),
         ("items", .jarr (tl.items.map TodoItem.to_dict))]

/-- One item of `TodoList.from_dict`'s comprehension:
`TodoItem(content=item["content"], completed=item.get("completed", False))`.
`none` models the `KeyError`/`TypeError` Python raises when `item` is not a
dict or has no `"content"` key; the model additionally requires the
schema's types (a string content, a boolean flag), which Python would
store unchecked. -/
def itemFromDict (v : JValue) : Option TodoItem :=
  match v with
  | .jobj kvs =>
    (match dictGetOpt kvs "content" with
     | some (.jstr c) =>
       (match dictGet kvs "completed" (.jbool false) with
        | .jbool b => some (TodoItem.mk c b)
        | _ => none)
     | _ => none)
  | _ => none

/-- The list comprehension of `TodoList.from_dict`: build every item,
failing as soon as one raises. -/
def itemsFromDicts : List JValue → Option (List TodoItem)
  | [] => some []
  | v :: rest =>
    match itemFromDict v with
    | some it =>
      (match itemsFromDicts rest with
       | some its => some (it :: its)
       | none => none)
    | none => none

/-- `TodoList.from_dict`.  Defaults: `items → []`, `task_description → ""`. -/
def TodoList.from_dict (data : JValue) : Option TodoList :=
  match data with
  | .jobj kvs =>
    (match dictGet kvs "task_description" (.jstr ""),
           dictGet kvs "items" (.jarr []) with
     | .jstr td, .jarr l =>
       (match itemsFromDicts l with
        | some items => some (TodoList.mk items td)
        | none => none)
     | _, _ => none)
  | _ => none

/-- `TodoList.get_pending_items`. -/
def TodoList.get_pending_items (tl : TodoList) : List String :=
  (tl.items.filter (fun it => !it.completed)).map (fun it => it.content)

/-- `TodoList.get_completed_items`. -/
def TodoList.get_completed_items (tl : TodoList) : List String :=
  (tl.items.filter (fun it => it.completed)).map (fun it => it.content)

/-- Loop body of `TodoList.mark_completed`: flip `completed` on the first
item whose content matches, returning whether one was found. -/
def markCompletedItems : List TodoItem → String → List TodoItem × Bool
  | [], _ => ([], false)
  | it :: rest, c =>
    if it.content = c then ({ it with completed := true } :: rest, true)
    else
      let r := markCompletedItems rest c
      (it :: r.1, r.2)

/-- `TodoList.mark_completed` (mutation made explicit: returns the new
list together with the found flag). -/
def TodoList.mark_completed (tl : TodoList) (item_content : String) :
    TodoList × Bool :=
  let r := markCompletedItems tl.items item_content
  ({ tl with items := r.1 }, r.2)

/-- `TodoList.add_item`: append unless an item with the same content exists. -/
def TodoList.add_item (tl : TodoList) (content : String) (completed : Bool) :
    TodoList :=
  if tl.items.any (fun it => it.content = content) then tl
  else { tl with items := tl.items ++ [TodoItem.mk content completed] }

/-! ### Persistence (`save`/`load`)

The file system is an association list from paths to the JSON value
stored there; `json.dump`/`json.load` — the library serialisation layer —
are modelled as storing the dict itself (the `json` library round-trips
these values exactly). `save` overwrites, `load` of a missing file gives
an empty list. -/

def fsRead (fs : List (String × JValue)) (p : String) : Option JValue :=
  match fs with
  | [] => none
  | e :: rest => if e.1 = p then some e.2 else fsRead rest p

/-- `TodoList.save`. -/
def TodoList.save (tl : TodoList) (fs : List (String × JValue))
    (filepath : String) : List (String × JValue) :=
  (filepath, tl.to_dict) :: fs

/-- `TodoList.load`; `none` models the exception from a malformed file. -/
def TodoList.load (fs : List (String × JValue)) (filepath : String) :
    Option TodoList :=
  match fsRead fs filepath with
  | none => some (TodoList.mk [] "")
  | some data => TodoList.from_dict data

/-! ### `SupervisorAgent._extract_json_from_text` (lines 320–350) -/

/-- `start_positions = [i for i, c in enumerate(text) if c == "\x7b"]`. -/
def startPositions (text : List Char) : List Nat :=
  (List.range text.length).filter (fun i => text.getD i ' ' = '\x7b')

/-- The inner scan: starting at absolute index `i` with the current
`brace_count`, walk forward; on `\x7d` decrement and stop when the count
reaches zero.  Returns the index of that closing brace, if reached. -/
def scanFrom : List Char → Int → Nat → Option Nat
  | [], _, _ => none
  | c :: rest, count, i =>
    if c = '\x7b' then scanFrom rest (count + 1) (i + 1)
    else if c = '\x7d' then
      (if count - 1 = 0 then some i else scanFrom rest (count - 1) (i + 1))
    else scanFrom rest count (i + 1)

/-- Index of the brace closing the span that starts at `start`. -/
def spanEnd (text : List Char) (start : Nat) : Option Nat :=
  scanFrom (text.drop start) 0 start

/-- Python slice `text[a:b]`. -/
def slice (text : List Char) (a b : Nat) : String :=
  String.mk ((text.drop a).take (b - a))

/-- One outer-loop iteration of `_extract_json_from_text`: find the span
from `start`, slice it, keep it only if it parses as JSON.  `none` covers
both an unterminated span and a span whose slice is invalid (Python's
`break`). -/
def tryStart (text : List Char) (start : Nat) : Option String :=
  match spanEnd text start with
  | none => none
  | some i =>
    let json_str := slice text start (i + 1)
    if isValidJson json_str then some json_str else none

/-- The outer loop over `start_positions`. -/
def extractLoop (text : List Char) : List Nat → Option String
  | [] => none
  | start :: rest =>
    match tryStart text start with
    | some s => some s
    | none => extractLoop text rest

/-- `SupervisorAgent._extract_json_from_text`. -/
def extract_json_from_text (text : String) : Option String :=
  extractLoop text.toList (startPositions text.toList)

/-! ### Strategy 1: the fenced-code-block regex (line 375)

`re.search(r"(3 backticks)(?:json)?\s*([\s\S]*?)\s*(3 backticks)", output,
re.IGNORECASE)` followed by `.group(1).strip()`.  `re.search` returns the
leftmost match; the lazy group together with the final `.strip()` make
the candidate equal to the stripped text between the end of the opening
fence (plus an optional case-insensitive `json` tag) and the *next*
occurrence of three backticks. -/

/-- Does the text start with a case-insensitive `json` tag? -/
def jsonTagCI : List Char → Bool
  | c1 :: c2 :: c3 :: c4 :: _ =>
    c1.toLower = 'j' && c2.toLower = 's' && c3.toLower = 'o' && c4.toLower = 'n'
  | _ => false

/-- Characters before the next occurrence of three backticks, if any. -/
def findClose : List Char → Option (List Char)
  | '\x60' :: '\x60' :: '\x60' :: _ => some []
  | c :: rest =>
    (match findClose rest with
     | some interior => some (c :: interior)
     | none => none)
  | [] => none

/-- Try to match the fence regex at this exact position; returns the
stripped group-1 candidate. -/
def fencedAt (l : List Char) : Option String :=
  match l with
  | '\x60' :: '\x60' :: '\x60' :: rest =>
    let rest2 := if jsonTagCI rest then rest.drop 4 else rest
    (match findClose rest2 with
     | some interior => some (String.mk (stripChars interior))
     | none => none)
  | _ => none

/-- `re.search` over all positions, leftmost first. -/
def reSearchFence : List Char → Option String
  | [] => none
  | c :: rest =>
    match fencedAt (c :: rest) with
    | some s => some s
    | none => reSearchFence rest

/-! ### `SupervisorAgent._parse_response` (lines 352–438) -/

/-- The external agent interface's response (success flag, output text,
error string). -/
structure AgentResponse where
  success : Bool
  output : String
  error : String
deriving DecidableEq

inductive TaskStatus where
  | completed
  | in_progress
  | pending
deriving DecidableEq

/-- The evaluation result.  The dataclass stores whatever Python values
`data.get` produced, unchecked; those dynamic values are carried as
`JValue` (Python's `False` is `.jbool false`, a list of strings is
`.jarr` of `.jstr`, …).  `status` alone is genuinely normalised to the
enum by the code. -/
structure SupervisorResult where
  is_complete : JValue
  status : TaskStatus
  pending_items : JValue
  summary : JValue
  raw_response : String
  newly_completed : JValue
  iteration : Nat

/-- The uncaught exception `_parse_response` can raise: `data.get` on a
non-dict (`json.loads` returned a list, string, number, bool or `None`)
raises `AttributeError`, which the `except json.JSONDecodeError` clause
does not catch. -/
inductive PyError where
  | attributeError
deriving DecidableEq

/-- `TaskStatus(status_str)` wrapped in `try/except ValueError`: an enum
lookup by exact string value, anything else falling back to `PENDING`. -/
def taskStatusOf (v : JValue) : TaskStatus :=
  match v with
  | .jstr s =>
    if s = "completed" then .completed
    else if s = "in_progress" then .in_progress
    else if s = "pending" then .pending
    else .pending
  | _ => .pending

/-- The three extraction strategies of `_parse_response`, in order:
(1) first fenced code block, (2) balanced-brace scan, (3) the whole
stripped output. -/
def selectJsonStr (output : String) : Option String :=
  let s1 : Option String :=
    match reSearchFence output.toList with
    | some cand => if isValidJson cand then some cand else none
    | none => none
  match s1 with
  | some c => some c
  | none =>
    match extract_json_from_text output with
    | some c => some c
    | none =>
      if isValidJson (pyStrip output) then some (pyStrip output) else none

/-- The result `_parse_response` builds when no strategy found valid JSON. -/
def unparsableResult (output : String) : SupervisorResult :=
  { is_complete := .jbool false
    status := .pending
    pending_items := .jarr [.jstr "无法解析agent响应，请手动检查"]
    summary := .jstr (if output = "" then "无输出" else pyTake200 output)
    raw_response := output
    newly_completed := .jarr []
    iteration := 0 }

/-- `SupervisorAgent._parse_response`. -/
def parse_response (response : AgentResponse) :
    Except PyError SupervisorResult :=
  if response.success then
    let output := response.output
    match selectJsonStr output with
    | none => .ok (unparsableResult output)
    | some json_str =>
      match json_loads json_str with
      | none => .ok (unparsableResult output)
      | some data =>
        match data with
        | .jobj kvs =>
          .ok { is_complete := dictGet kvs "is_complete" (.jbool false)
                status := taskStatusOf (dictGet kvs "status" (.jstr "pending"))
                pending_items := dictGet kvs "pending_items" (.jarr [])
                summary := dictGet kvs "summary" (.jstr "")
                raw_response := output
                newly_completed := dictGet kvs "newly_completed" (.jarr [])
                iteration := 0 }
        | _ => .error .attributeError
  else
    .ok { is_complete := .jbool false
          status := .pending
          pending_items := .jarr [.jstr ("Agent执行失败: " ++ response.error)]
          summary := .jstr "无法检查任务状态，agent执行出错"
          raw_response := response.output
          newly_completed := .jarr []
          iteration := 0 }

/-- `SupervisorAgent._update_todo_list`: mark every `newly_completed`
entry, then `add_item` every `pending_items` entry (entries taken from
the reply per its schema). -/
def update_todo_list (tl : TodoList) (newly_completed pending_items : List String) :
    TodoList :=
  let tl1 := newly_completed.foldl (fun acc item => (acc.mark_completed item).1) tl
  pending_items.foldl (fun acc item => acc.add_item item false) tl1

/-- The item contents of a todo list, in order (spec-side abbreviation). -/
def TodoList.contents (tl : TodoList) : List String :=
  tl.items.map (fun it => it.content)

/-- Spec-side notion used by the spec's description of strategy (b): a
`\x7b` index is *top-level* when every earlier `\x7b`'s balanced span (if
it closes at all) ends strictly before it. -/
def isTopLevelStartB (text : List Char) (s : Nat) : Bool :=
  (startPositions text).all (fun t =>
    if t < s then
      match spanEnd text t with
      | some j => decide (j < s)
      | none => false
    else true)

/-! ## Helper lemmas -/

lemma startPositions_pairwise (text : List Char) :
    (startPositions text).Pairwise (fun a b => a < b) :=
  (List.pairwise_lt_range text.length).sublist (List.filter_sublist _)

/-- The outer loop of `_extract_json_from_text` returns `s` exactly when
some start position yields `s` and every *earlier* start position (in
left-to-right order, nested or not) yields nothing. -/
lemma extractLoop_eq_some_iff (text : List Char) (starts : List Nat)
    (hs : starts.Pairwise (fun a b => a < b)) (s : String) :
    extractLoop text starts = some s ↔
      ∃ start, start ∈ starts ∧ tryStart text start = some s ∧
        ∀ start', start' ∈ starts → start' < start →
          tryStart text start' = none := by
  induction starts with
  | nil => simp [extractLoop]
  | cons a rest ih =>
    have ha : ∀ b ∈ rest, a < b := (List.pairwise_cons.mp hs).1
    have hrest := (List.pairwise_cons.mp hs).2
    cases h : tryStart text a with
    | some s0 =>
      have hE : extractLoop text (a :: rest) = some s0 := by
        simp [extractLoop, h]
      rw [hE, Option.some.injEq]
      constructor
      · rintro rfl
        refine ⟨a, List.mem_cons_self a rest, h, ?_⟩
        intro s' hs' hlt
        rcases List.mem_cons.mp hs' with rfl | hm
        · exact absurd hlt (lt_irrefl _)
        · exact absurd hlt (not_lt.mpr (le_of_lt (ha s' hm)))
      · rintro ⟨start, hmem, htry, hmin⟩
        rcases List.mem_cons.mp hmem with rfl | hm
        · rw [h] at htry
          exact (Option.some.injEq _ _).mp htry
        · have := hmin a (List.mem_cons_self a rest) (ha start hm)
          rw [h] at this
          exact absurd this (by simp)
    | none =>
      have hE : extractLoop text (a :: rest) = extractLoop text rest := by
        simp [extractLoop, h]
      rw [hE, ih hrest]
      constructor
      · rintro ⟨start, hmem, htry, hmin⟩
        refine ⟨start, List.mem_cons_of_mem a hmem, htry, ?_⟩
        intro s' hs' hlt
        rcases List.mem_cons.mp hs' with rfl | hm
        · exact h
        · exact hmin s' hm hlt
      · rintro ⟨start, hmem, htry, hmin⟩
        rcases List.mem_cons.mp hmem with rfl | hm
        · rw [h] at htry; exact absurd htry (by simp)
        · refine ⟨start, hm, htry, ?_⟩
          intro s' hs' hlt
          exact hmin s' (List.mem_cons_of_mem a hs') hlt

/-! ## Claims -/

/-- Concrete reply for C1: the whole text is a balanced span that is not
valid JSON, with a nested `\x7b` inside it whose span is valid JSON. -/
def c1text : String := "\x7bbad \x7b\"a\": 1\x7d \x7d"

/-- C1 counterexample: in `c1text` the only `\x7b` positions are 0 and 5;
position 0 is the only top-level one and its span (closing at index 14)
is not valid JSON, so under the claim's description ("do not retry nested
starts from within that failed span — move to the next top-level brace")
extraction would return nothing.  The code instead retries the nested
start 5 and returns its span. -/
theorem c1_counterexample :
    ((startPositions c1text.toList).filter (fun s =>
        isTopLevelStartB c1text.toList s &&
          (tryStart c1text.toList s).isSome)) = [] ∧
    extract_json_from_text c1text = some "\x7b\"a\": 1\x7d" ∧
    startPositions c1text.toList = [0, 5] ∧
    spanEnd c1text.toList 0 = some 14 ∧
    isValidJson (slice c1text.toList 0 15) = false := by
  refine ⟨by decide, by decide, by decide, by decide, by decide⟩

/-- C1 (amended): the balanced-brace extraction scans all `\x7b` positions
left-to-right; for each it scans forward tracking brace depth until it
returns to zero and attempts to parse that slice; it accepts the first
start position (in left-to-right order) whose span parses; when a span
fails to parse, the scan moves on to the next `\x7b` position in order —
which includes `\x7b` starts nested inside the failed span. -/
theorem c1_theorem (text s : String) :
    extract_json_from_text text = some s ↔
      ∃ start, start ∈ startPositions text.toList ∧
        tryStart text.toList start = some s ∧
        ∀ start', start' ∈ startPositions text.toList → start' < start →
          tryStart text.toList start' = none := by
  unfold extract_json_from_text
  exact extractLoop_eq_some_iff text.toList (startPositions text.toList)
    (startPositions_pairwise text.toList) s

/-- C1 witness: the characterisation applied on `c1text` — start 5 is
accepted and the only earlier start, 0, is rejected. -/
theorem c1_witness : extract_json_from_text c1text = some "\x7b\"a\": 1\x7d" := by
  refine (c1_theorem c1text "\x7b\"a\": 1\x7d").mpr ⟨5, by decide, by decide, ?_⟩
  decide

/-- Concrete reply for C4: a non-parsing top-level span containing a
parsing nested span, followed by a parsing top-level span. -/
def c4text : String := "\x7bbad \x7b\"a\":1\x7d \x7d \x7b\"c\":2\x7d"

/-- C4 counterexample: `c4text` contains exactly one *top-level*
balanced-brace span that parses as JSON (the one starting at 15, the
slice `\x7b"c":2\x7d`), yet the extraction returns the span of the nested
start 5 instead. -/
theorem c4_counterexample :
    ((startPositions c4text.toList).filter (fun s =>
        isTopLevelStartB c4text.toList s &&
          (tryStart c4text.toList s).isSome)) = [15] ∧
    tryStart c4text.toList 15 = some "\x7b\"c\":2\x7d" ∧
    extract_json_from_text c4text = some "\x7b\"a\":1\x7d" ∧
    ¬ ("\x7b\"a\":1\x7d" = "\x7b\"c\":2\x7d") := by
  refine ⟨by decide, by decide, by decide, by decide⟩

/-- C4 (amended): for every reply in which exactly one `\x7b` position —
counting nested positions, not only top-level ones — has a balanced span
that parses as JSON, the balanced-brace extraction returns exactly that
span. -/
theorem c4_theorem (text : String) (start : Nat) (s : String)
    (h1 : start ∈ startPositions text.toList)
    (h2 : tryStart text.toList start = some s)
    (h3 : ∀ start', start' ∈ startPositions text.toList → start' ≠ start →
      tryStart text.toList start' = none) :
    extract_json_from_text text = some s := by
  unfold extract_json_from_text
  refine (extractLoop_eq_some_iff text.toList (startPositions text.toList)
    (startPositions_pairwise text.toList) s).mpr ⟨start, h1, h2, ?_⟩
  intro s' hs' hlt
  exact h3 s' hs' (Nat.ne_of_lt hlt)

/-- C4 witness: one JSON object embedded in prose (with a decoy brace
after it that never closes) is recovered exactly. -/
theorem c4_witness :
    extract_json_from_text "Result: \x7b\"is_complete\": true\x7d done \x7b" =
      some "\x7b\"is_complete\": true\x7d" := by
  refine c4_theorem "Result: \x7b\"is_complete\": true\x7d done \x7b" 8
    "\x7b\"is_complete\": true\x7d" (by decide) (by decide) ?_
  decide

/-- C10: strategy (a) considers only the first fenced code block — the
one `re.search` match.  Whenever that block's stripped interior is not
valid JSON, strategy (a) contributes nothing regardless of any later
fenced block, and the selection falls through to the balanced-brace scan
(strategy b), then to the whole-reply parse (strategy c); in particular
whatever strategy (b) finds is the overall selection. -/
theorem c10_theorem (output cand : String)
    (h1 : reSearchFence output.toList = some cand)
    (h2 : isValidJson cand = false) :
    selectJsonStr output =
      (match extract_json_from_text output with
       | some c => some c
       | none =>
         if isValidJson (pyStrip output) then some (pyStrip output) else none) ∧
    (∀ s, extract_json_from_text output = some s →
      selectJsonStr output = some s) := by
  have hmain : selectJsonStr output =
      (match extract_json_from_text output with
       | some c => some c
       | none =>
         if isValidJson (pyStrip output) then some (pyStrip output) else none) := by
    unfold selectJsonStr
    rw [h1]
    simp [h2]
  refine ⟨hmain, ?_⟩
  intro s hs
  rw [hmain, hs]

/-- Concrete reply for C10: the first fenced block is prose, a later
fenced block holds valid JSON. -/
def c10text : String :=
  "```\nprose here\n```\ntext\n```json\n\x7b\"ok\": 1\x7d\n```"

/-- C10 witness: on `c10text` the first block's interior `prose here` is
not JSON, and the JSON object of the later block is still recovered —
via the balanced-brace scan. -/
theorem c10_witness : selectJsonStr c10text = some "\x7b\"ok\": 1\x7d" :=
  (c10_theorem c10text "prose here" (by decide) (by decide)).2
    "\x7b\"ok\": 1\x7d" (by decide)

/-- C2 counterexample: on a failed agent call with error `boom`, the
summary is the fixed message `无法检查任务状态，agent执行出错` — not the
raw error text (`boom` appears in the single pending item instead). -/
theorem c2_counterexample :
    parse_response (AgentResponse.mk false "partial output" "boom") =
      Except.ok (SupervisorResult.mk (JValue.jbool false) TaskStatus.pending
        (JValue.jarr [JValue.jstr "Agent执行失败: boom"])
        (JValue.jstr "无法检查任务状态，agent执行出错")
        "partial output" (JValue.jarr []) 0) ∧
    ¬ ("无法检查任务状态，agent执行出错" = "boom") :=
  ⟨rfl, by decide⟩

/-- C2 (amended): whenever the external agent call reports failure, the
parse returns — never raises — a result with `is_complete = false`,
`status = pending`, exactly one pending item carrying the raw error text,
the fixed failure-description message as summary, the raw output kept in
`raw_response`, and no JSON parsing of the reply is attempted. -/
theorem c2_theorem (response : AgentResponse) (h : response.success = false) :
    parse_response response = Except.ok
      { is_complete := JValue.jbool false
        status := TaskStatus.pending
        pending_items := JValue.jarr [JValue.jstr ("Agent执行失败: " ++ response.error)]
        summary := JValue.jstr "无法检查任务状态，agent执行出错"
        raw_response := response.output
        newly_completed := JValue.jarr []
        iteration := 0 } := by
  unfold parse_response
  rw [h]
  simp

/-- C2 witness at a concrete failed response. -/
theorem c2_witness :
    parse_response (AgentResponse.mk false "out" "err") = Except.ok
      (SupervisorResult.mk (JValue.jbool false) TaskStatus.pending
        (JValue.jarr [JValue.jstr "Agent执行失败: err"])
        (JValue.jstr "无法检查任务状态，agent执行出错")
        "out" (JValue.jarr []) 0) :=
  c2_theorem (AgentResponse.mk false "out" "err") rfl

/-- C3 counterexample: a successful reply with *empty* output has no
valid JSON under any strategy, and its summary is the fixed placeholder
`无输出` — which is not a prefix of the raw (empty) reply. -/
theorem c3_counterexample :
    parse_response (AgentResponse.mk true "" "") =
      Except.ok (SupervisorResult.mk (JValue.jbool false) TaskStatus.pending
        (JValue.jarr [JValue.jstr "无法解析agent响应，请手动检查"])
        (JValue.jstr "无输出") "" (JValue.jarr []) 0) ∧
    ¬ ("无输出" = "") :=
  ⟨rfl, by decide⟩

/-- C3 (amended): for every successful, *non-empty* reply on which none
of the three extraction strategies yields valid JSON, the result is
`is_complete = false`, `status = pending`, a pending-items list of length
exactly one flagging manual review, and a summary equal to the
200-character prefix of the raw reply (a prefix: take ++ drop restores
the reply; of length at most 200). -/
theorem c3_theorem (response : AgentResponse)
    (h1 : response.success = true) (h2 : response.output ≠ "")
    (h3 : selectJsonStr response.output = none) :
    parse_response response = Except.ok
      { is_complete := JValue.jbool false
        status := TaskStatus.pending
        pending_items := JValue.jarr [JValue.jstr "无法解析agent响应，请手动检查"]
        summary := JValue.jstr (pyTake200 response.output)
        raw_response := response.output
        newly_completed := JValue.jarr []
        iteration := 0 } ∧
    (pyTake200 response.output).toList ++ response.output.toList.drop 200 =
      response.output.toList ∧
    (pyTake200 response.output).toList.length ≤ 200 := by
  refine ⟨?_, ?_, ?_⟩
  · unfold parse_response
    rw [h1]
    simp only [if_true]
    rw [h3]
    simp [unparsableResult, h2]
  · show (String.mk (response.output.toList.take 200)).toList ++ _ = _
    exact List.take_append_drop 200 response.output.toList
  · show (String.mk (response.output.toList.take 200)).toList.length ≤ 200
    simp [List.length_take]

/-- C3 witness at a concrete unparsable non-empty reply. -/
theorem c3_witness :
    parse_response (AgentResponse.mk true "hello there" "") = Except.ok
      (SupervisorResult.mk (JValue.jbool false) TaskStatus.pending
        (JValue.jarr [JValue.jstr "无法解析agent响应，请手动检查"])
        (JValue.jstr "hello there") "hello there" (JValue.jarr []) 0) :=
  (c3_theorem (AgentResponse.mk true "hello there" "") rfl (by decide) (by decide)).1

/-- Projection of a non-raising `_parse_response` outcome. -/
def okOf : Except PyError SupervisorResult → Option SupervisorResult
  | .ok r => some r
  | .error _ => none

lemma dictGetOpt_absent (kvs : List (String × JValue)) (k : String)
    (h : ∀ p ∈ kvs, p.1 ≠ k) : dictGetOpt kvs k = none := by
  induction kvs with
  | nil => rfl
  | cons e rest ih =>
    have hne : e.1 ≠ k := h e (List.mem_cons_self e rest)
    cases e with
    | mk k' v =>
      simp only [dictGetOpt, if_neg hne]
      exact ih (fun p hp => h p (List.mem_cons_of_mem _ hp))

lemma dictGet_absent (kvs : List (String × JValue)) (k : String) (d : JValue)
    (h : ∀ p ∈ kvs, p.1 ≠ k) : dictGet kvs k d = d := by
  simp [dictGet, dictGetOpt_absent kvs k h]

lemma taskStatusOf_unknown (sv : JValue)
    (h1 : sv ≠ JValue.jstr "completed") (h2 : sv ≠ JValue.jstr "in_progress") :
    taskStatusOf sv = TaskStatus.pending := by
  cases sv <;> try rfl
  case jstr s =>
    have n1 : s ≠ "completed" := fun he => h1 (by rw [he])
    have n2 : s ≠ "in_progress" := fun he => h2 (by rw [he])
    simp [taskStatusOf, n1, n2]

/-- C6 counterexample: `[1, 2]` is a successful JSON parse of the whole
reply (strategy c), yet instead of defaulting the absent fields the code
raises `AttributeError` (`data.get` on a list), uncaught by the
`except json.JSONDecodeError` clause. -/
theorem c6_counterexample :
    parse_response (AgentResponse.mk true "[1, 2]" "") =
      Except.error PyError.attributeError := rfl

/-- C6 (amended): on a successful JSON parse of the reply *as a JSON
object*, every absent field is defaulted (`is_complete` to false,
`status` to pending, `pending_items` and `newly_completed` to empty
lists, `summary` to the empty string), and a status value outside
completed/in_progress/pending is silently normalised to pending instead
of failing the parse; a successful parse into a non-object raises
instead. -/
theorem c6_theorem (response : AgentResponse) (js : String)
    (kvs : List (String × JValue))
    (h1 : response.success = true)
    (h2 : selectJsonStr response.output = some js)
    (h3 : json_loads js = some (JValue.jobj kvs)) :
    (okOf (parse_response response)).map SupervisorResult.raw_response =
      some response.output ∧
    ((∀ p ∈ kvs, p.1 ≠ "is_complete") →
      (okOf (parse_response response)).map SupervisorResult.is_complete =
        some (JValue.jbool false)) ∧
    ((∀ p ∈ kvs, p.1 ≠ "status") →
      (okOf (parse_response response)).map SupervisorResult.status =
        some TaskStatus.pending) ∧
    ((∀ p ∈ kvs, p.1 ≠ "pending_items") →
      (okOf (parse_response response)).map SupervisorResult.pending_items =
        some (JValue.jarr [])) ∧
    ((∀ p ∈ kvs, p.1 ≠ "newly_completed") →
      (okOf (parse_response response)).map SupervisorResult.newly_completed =
        some (JValue.jarr [])) ∧
    ((∀ p ∈ kvs, p.1 ≠ "summary") →
      (okOf (parse_response response)).map SupervisorResult.summary =
        some (JValue.jstr "")) ∧
    (∀ sv, dictGet kvs "status" (JValue.jstr "pending") = sv →
      sv ≠ JValue.jstr "completed" → sv ≠ JValue.jstr "in_progress" →
      sv ≠ JValue.jstr "pending" →
      (okOf (parse_response response)).map SupervisorResult.status =
        some TaskStatus.pending) := by
  have hpr : parse_response response = Except.ok
      { is_complete := dictGet kvs "is_complete" (JValue.jbool false)
        status := taskStatusOf (dictGet kvs "status" (JValue.jstr "pending"))
        pending_items := dictGet kvs "pending_items" (JValue.jarr [])
        summary := dictGet kvs "summary" (JValue.jstr "")
        raw_response := response.output
        newly_completed := dictGet kvs "newly_completed" (JValue.jarr [])
        iteration := 0 } := by
    unfold parse_response
    rw [h1]
    simp only [if_true]
    rw [h2]
    simp [h3]
  rw [hpr]
  refine ⟨rfl, ?_, ?_, ?_, ?_, ?_, ?_⟩
  · intro h; simp [okOf, dictGet_absent _ _ _ h]
  · intro h; simp [okOf, dictGet_absent _ _ _ h, taskStatusOf]
  · intro h; simp [okOf, dictGet_absent _ _ _ h]
  · intro h; simp [okOf, dictGet_absent _ _ _ h]
  · intro h; simp [okOf, dictGet_absent _ _ _ h]
  · intro sv hsv hn1 hn2 _
    have hst : taskStatusOf (dictGet kvs "status" (JValue.jstr "pending")) =
        TaskStatus.pending := by
      rw [hsv]; exact taskStatusOf_unknown sv hn1 hn2
    simp [okOf, hst]

/-- Concrete reply for C6's witness: an object with an unknown status
value and every other field absent. -/
def c6resp : AgentResponse :=
  AgentResponse.mk true "\x7b\"status\": \"weird\"\x7d" ""

/-- C6 witness: the unknown status `weird` is normalised to pending. -/
theorem c6_witness :
    (okOf (parse_response c6resp)).map SupervisorResult.status =
      some TaskStatus.pending :=
  (c6_theorem c6resp "\x7b\"status\": \"weird\"\x7d"
      [("status", JValue.jstr "weird")] rfl (by decide) rfl).2.2.2.2.2.2
    (JValue.jstr "weird") rfl (by simp) (by simp) (by simp)

/-! ## Todo store lemmas -/

lemma markCompletedItems_contents (l : List TodoItem) (c : String) :
    (markCompletedItems l c).1.map (fun it => it.content) =
      l.map (fun it => it.content) := by
  induction l with
  | nil => rfl
  | cons it rest ih =>
    by_cases h : it.content = c
    · simp [markCompletedItems, h]
    · simp [markCompletedItems, h, ih]

lemma mark_completed_contents (tl : TodoList) (c : String) :
    ((tl.mark_completed c).1).contents = tl.contents := by
  simp [TodoList.mark_completed, TodoList.contents, markCompletedItems_contents]

lemma markCompletedItems_no_match (l : List TodoItem) (c : String)
    (h : ∀ it ∈ l, it.content ≠ c) : markCompletedItems l c = (l, false) := by
  induction l with
  | nil => rfl
  | cons it rest ih =>
    have hne := h it (List.mem_cons_self it rest)
    simp [markCompletedItems, hne,
      ih (fun x hx => h x (List.mem_cons_of_mem _ hx))]

lemma add_item_nodup (tl : TodoList) (c : String) (b : Bool)
    (h : tl.contents.Nodup) : ((tl.add_item c b).contents).Nodup := by
  cases hany : tl.items.any (fun it => it.content = c) with
  | true => simpa [TodoList.add_item, hany] using h
  | false =>
    have hnotin : c ∉ tl.contents := by
      intro hc
      rcases List.mem_map.mp hc with ⟨it, hit, hcont⟩
      have := List.any_eq_false.mp hany it hit
      simp [hcont] at this
    simp [TodoList.add_item, hany, TodoList.contents, List.nodup_append]
    exact ⟨by simpa [TodoList.contents] using h,
      by simpa [TodoList.contents, List.disjoint_singleton] using hnotin⟩

lemma mark_completed_nodup (tl : TodoList) (c : String)
    (h : tl.contents.Nodup) : (((tl.mark_completed c).1).contents).Nodup := by
  rw [mark_completed_contents]; exact h

lemma foldl_mark_contents (nc : List String) (tl : TodoList) :
    (nc.foldl (fun acc item => (acc.mark_completed item).1) tl).contents =
      tl.contents := by
  induction nc generalizing tl with
  | nil => rfl
  | cons x rest ih =>
    rw [List.foldl_cons, ih, mark_completed_contents]

lemma foldl_add_nodup (pi : List String) (tl : TodoList)
    (h : tl.contents.Nodup) :
    ((pi.foldl (fun acc item => acc.add_item item false) tl).contents).Nodup := by
  induction pi generalizing tl with
  | nil => exact h
  | cons x rest ih => exact ih _ (add_item_nodup tl x false h)

lemma itemFromDict_to_dict (it : TodoItem) : itemFromDict it.to_dict = some it := by
  cases it with
  | mk c b => rfl

lemma itemsFromDicts_map (items : List TodoItem) :
    itemsFromDicts (items.map TodoItem.to_dict) = some items := by
  induction items with
  | nil => rfl
  | cons it rest ih => simp [itemsFromDicts, itemFromDict_to_dict, ih]

lemma from_dict_to_dict (tl : TodoList) :
    TodoList.from_dict tl.to_dict = some tl := by
  cases tl with
  | mk items td =>
    have h1 : dictGet [("task_description", JValue.jstr td),
        ("items", JValue.jarr (items.map TodoItem.to_dict))] "task_description"
        (JValue.jstr "") = JValue.jstr td := rfl
    have h2 : dictGet [("task_description", JValue.jstr td),
        ("items", JValue.jarr (items.map TodoItem.to_dict))] "items"
        (JValue.jarr []) = JValue.jarr (items.map TodoItem.to_dict) := rfl
    simp [TodoList.from_dict, TodoList.to_dict, h1, h2, itemsFromDicts_map]

lemma load_save (tl : TodoList) (fs : List (String × JValue)) (path : String) :
    TodoList.load (TodoList.save tl fs path) path = some tl := by
  have hfs : fsRead (TodoList.save tl fs path) path = some tl.to_dict := by
    simp [TodoList.save, fsRead]
  simp [TodoList.load, hfs, from_dict_to_dict]

/-- A crafted todo file carrying two items with identical content (the
store's own `save` never writes such a file, but `load` accepts it). -/
def dupFile : List (String × JValue) :=
  [("todo.json", JValue.jobj
    [("task_description", JValue.jstr ""),
     ("items", JValue.jarr
       [JValue.jobj [("content", JValue.jstr "a"), ("completed", JValue.jbool false)],
        JValue.jobj [("content", JValue.jstr "a"), ("completed", JValue.jbool true)]])])]

/-- C5 counterexample: loading a file whose items list repeats a content
yields a `TodoList` with two items of the same content — `from_dict`
performs no deduplication, so "load from a file" does not establish the
content-uniqueness invariant. -/
theorem c5_counterexample :
    TodoList.load dupFile "todo.json" =
      some (TodoList.mk [TodoItem.mk "a" false, TodoItem.mk "a" true] "") ∧
    ¬ ((TodoList.mk [TodoItem.mk "a" false, TodoItem.mk "a" true] "").contents).Nodup :=
  ⟨rfl, by decide⟩

/-- C5 (amended): starting from a content-unique `TodoList`, `add_item`,
`mark_completed` and the Evaluator's merge (`_update_todo_list`) all
preserve content-uniqueness, and a save/load round trip reproduces the
same (hence still unique) list; `load` alone guarantees uniqueness only
when the file's stored contents are themselves unique — a crafted file
with duplicated contents is loaded without deduplication. -/
theorem c5_theorem (tl : TodoList) (h : tl.contents.Nodup) :
    (∀ c b, ((tl.add_item c b).contents).Nodup) ∧
    (∀ c, (((tl.mark_completed c).1).contents).Nodup) ∧
    (∀ nc pi, ((update_todo_list tl nc pi).contents).Nodup) ∧
    (∀ fs path, TodoList.load (TodoList.save tl fs path) path = some tl) := by
  refine ⟨fun c b => add_item_nodup tl c b h,
    fun c => mark_completed_nodup tl c h, ?_, fun fs path => load_save tl fs path⟩
  intro nc pi
  unfold update_todo_list
  exact foldl_add_nodup pi _ ((foldl_mark_contents nc tl).symm ▸ h)

/-- C5 witness: one merge step on a concrete unique list stays unique. -/
theorem c5_witness :
    ((update_todo_list (TodoList.mk [TodoItem.mk "a" false] "t")
      ["a"] ["b", "a"]).contents).Nodup :=
  (c5_theorem (TodoList.mk [TodoItem.mk "a" false] "t") (by decide)).2.2.1
    ["a"] ["b", "a"]

/-- A `TodoList` value with duplicated content, as `from_dict` can
produce (see `c5_counterexample`). -/
def dupTodoList : TodoList :=
  TodoList.mk [TodoItem.mk "a" false, TodoItem.mk "a" true] ""

/-- C7 counterexample: on a list that already holds two items of content
`a`, adding `a` twice leaves *two* items of that content, not exactly
one — the claim's "for every TodoList" is too strong. -/
theorem c7_counterexample :
    ((dupTodoList.add_item "a" false).add_item "a" true).items.countP
      (fun it => it.content = "a") = 2 := by decide

/-- C7 (amended): for every `TodoList` holding at most one item of the
given content, calling `add_item` twice (whatever flag the second call
passes) equals calling it once, the result holds exactly one item of
that content, and if the content was absent the item sits appended at
the end of the original list with the first call's completed flag. -/
theorem c7_theorem (tl : TodoList) (c : String) (b b' : Bool)
    (h : tl.items.countP (fun it => it.content = c) ≤ 1) :
    (tl.add_item c b).add_item c b' = tl.add_item c b ∧
    ((tl.add_item c b).add_item c b').items.countP (fun it => it.content = c) = 1 ∧
    (tl.items.all (fun it => it.content ≠ c) →
      ((tl.add_item c b).add_item c b').items = tl.items ++ [TodoItem.mk c b]) := by
  cases hany : tl.items.any (fun it => it.content = c) with
  | true =>
    have hone : tl.add_item c b = tl := by simp [TodoList.add_item, hany]
    have htwo : (tl.add_item c b).add_item c b' = tl := by
      rw [hone]; simp [TodoList.add_item, hany]
    have hpos : 0 < tl.items.countP (fun it => it.content = c) := by
      rcases List.any_eq_true.mp hany with ⟨it, hit, hp⟩
      exact List.countP_pos_iff.mpr ⟨it, hit, hp⟩
    refine ⟨by rw [htwo, hone], by rw [htwo]; omega, ?_⟩
    intro hall
    exfalso
    rcases List.any_eq_true.mp hany with ⟨it, hit, hp⟩
    have := List.all_eq_true.mp hall it hit
    simp at this hp
    exact this hp
  | false =>
    have hone : tl.add_item c b =
        { tl with items := tl.items ++ [TodoItem.mk c b] } := by
      simp [TodoList.add_item, hany]
    have hany2 : (tl.items ++ [TodoItem.mk c b]).any
        (fun it => it.content = c) = true := by
      simp [List.any_append]
    have htwo : (tl.add_item c b).add_item c b' = tl.add_item c b := by
      rw [hone]; simp [TodoList.add_item, hany2]
    have hzero : tl.items.countP (fun it => it.content = c) = 0 := by
      refine List.countP_eq_zero.mpr ?_
      intro it hit
      have := List.any_eq_false.mp hany it hit
      simpa using this
    refine ⟨htwo, ?_, ?_⟩
    · rw [htwo, hone]
      simp [List.countP_append, hzero]
    · intro _
      rw [htwo, hone]

/-- C7 witness: adding a fresh content twice on a concrete list. -/
theorem c7_witness :
    ((TodoList.mk [TodoItem.mk "x" true] "t").add_item "y" false).add_item "y" true =
      (TodoList.mk [TodoItem.mk "x" true] "t").add_item "y" false :=
  (c7_theorem (TodoList.mk [TodoItem.mk "x" true] "t") "y" false true (by decide)).1

/-- C8: when no stored item's content matches, `mark_completed` returns
`false` and the todo list — items, contents, completion flags, order and
task description — is unchanged. -/
theorem c8_theorem (tl : TodoList) (c : String)
    (h : ∀ it ∈ tl.items, it.content ≠ c) :
    tl.mark_completed c = (tl, false) := by
  cases tl with
  | mk items td =>
    simp only [TodoList.mark_completed, markCompletedItems_no_match items c h]

/-- C8 witness on a concrete list and missing content. -/
theorem c8_witness :
    (TodoList.mk [TodoItem.mk "a" false] "t").mark_completed "b" =
      (TodoList.mk [TodoItem.mk "a" false] "t", false) :=
  c8_theorem (TodoList.mk [TodoItem.mk "a" false] "t") "b" (by decide)

/-- C9: saving a `TodoList` to a path and loading from that same path
reproduces the list — identical item contents and completed flags, in
the same order, and the same task description. -/
theorem c9_theorem (tl : TodoList) (fs : List (String × JValue)) (path : String) :
    TodoList.load (TodoList.save tl fs path) path = some tl :=
  load_save tl fs path

end Agend
